import Mathlib

/-!
Verification of the deep-research repository core: the recursive research
orchestrator (src/deep-research.ts), the rate-limited model-request executor
and prompt trimmer (src/ai/providers.ts), and the report synthesizer.

The TypeScript code is shallowly embedded: effectful collaborator calls
(the generative-model endpoint, the Firecrawl search provider, JSON.parse)
are passed in as explicit environment functions; promise concurrency is
modelled by value-passing in source order (Promise.all resolves to the
array of results in input order, so branch values are order-deterministic);
the number of search-provider invocations is threaded through explicitly so
that claims about "no search calls" are statable.
-/

namespace DeepResearch

/-- Embedding of the JavaScript idiom `[...new Set(l)]`: deduplication by
exact equality, keeping the first occurrence of each element, preserving
insertion order. -/
def jsSetDedup (l : List String) : List String :=
  l.foldl (fun acc x => if x ∈ acc then acc else acc ++ [x]) []

/-- Embedding of lodash `compact` applied to a list of optional strings:
drops `undefined`/`null` entries and falsy (empty) strings. -/
def jsCompact (l : List (Option String)) : List String :=
  (l.filterMap id).filter (fun s => !(s == ""))

/-- Embedding of JavaScript `l.slice(0, n)` for a possibly negative `n`:
a nonnegative bound takes a prefix, a negative bound counts from the end. -/
def jsSliceTo (n : Int) (l : List α) : List α :=
  if 0 ≤ n then l.take n.toNat else l.take ((l.length : Int) + n).toNat

/-- Embedding of JavaScript `s.includes(sub)`: substring containment. -/
def jsIncludes (sub s : String) : Bool :=
  decide (sub.toList <:+: s.toList)

/-- Helper for regex-style run collapsing: replaces every maximal run of
characters satisfying `p` by the single character `rep`. The boolean flag
records whether we are inside a run. -/
def collapseRunsAux (p : Char → Bool) (rep : Char) : Bool → List Char → List Char
  | _, [] => []
  | inRun, c :: rest =>
    if p c then
      if inRun then collapseRunsAux p rep true rest
      else rep :: collapseRunsAux p rep true rest
    else c :: collapseRunsAux p rep false rest

/-- Replaces every maximal run of characters satisfying `p` by `rep`,
modelling the regex replaces in `cleanJsonResponse`. -/
def collapseRuns (p : Char → Bool) (rep : Char) (l : List Char) : List Char :=
  collapseRunsAux p rep false l

/-- Embedding of `cleanJsonResponse` from src/deep-research.ts: strips
markdown code-fence markers, trims, collapses newline runs to a space and
then whitespace runs to a space. -/
def cleanJsonResponse (content : String) : String :=
  let c1 := ((content.replace "```json\n" "").replace "```\n" "").replace "```" ""
  let c2 := c1.trim
  let c3 := (collapseRuns (fun c => c == '\n') ' ' c2.toList).asString
  ((collapseRuns (fun c => c.isWhitespace) ' ' c3.toList).asString)

/-- Embedding of `Promise.all` over already-evaluated branch results: the
resolved array keeps input order; `none` marks the fuel-exhaustion artifact
of the embedding (never an actual runtime outcome). -/
def promiseAll : List (Option α) → Option (List α)
  | [] => some []
  | none :: _ => none
  | some a :: rest =>
    match promiseAll rest with
    | none => none
    | some l => some (a :: l)

/-- Embedding of `Math.ceil(b / 2)` on integers, via ceil x = -floor (-x). -/
def mathCeilHalf (b : Int) : Int :=
  -((-b).fdiv 2)

/-- `ResearchResult` from src/deep-research.ts. -/
structure ResearchResult where
  learnings : List String
  visitedUrls : List String
deriving DecidableEq

/-- `SerpQuery` from src/deep-research.ts. -/
structure SerpQuery where
  query : String
  researchGoal : String
deriving DecidableEq

/-- `ProcessResult` from src/deep-research.ts. -/
structure ProcessResult where
  learnings : List String
  followUpQuestions : List String
deriving DecidableEq

/-- One item of a Firecrawl `SearchResponse`: a scraped page with its URL
and markdown content, either possibly absent. -/
structure SearchItem where
  url : Option String
  markdown : Option String
deriving DecidableEq

/-- The Firecrawl `SearchResponse` payload consumed by the orchestrator. -/
structure SearchResponse where
  data : List SearchItem
deriving DecidableEq

/-- A search-provider failure as observed by the catch block in
`deepResearch`: an optional HTTP status code and a message. The catch
block only logs a classification; its returned value does not depend on
these fields. -/
structure SearchError where
  statusCode : Option Nat
  message : String
deriving DecidableEq

/-- The external collaborators of the orchestrator.
`planResponse` abstracts, for `generateSerpQueries`, the composite
o3MiniModel call plus `cleanJsonResponse` plus `JSON.parse`: `none` is any
failure on that path (thrown error, empty content, unparsable content) and
`some qs` is a successfully parsed `queries` payload, as a function of the
query text, the prior learnings and the requested count (all of which feed
the prompt). `search` abstracts `firecrawl.search`, which either returns a
response or throws. `digestResponse` does for `processSerpResult` what
`planResponse` does for `generateSerpQueries` (the prompt there is a
function of the query text and of the trimmed result contents, hence of the
raw result). -/
structure ResearchEnv where
  planResponse : String → List String → Int → Option (List SerpQuery)
  search : String → Except SearchError SearchResponse
  digestResponse : String → SearchResponse → Int → Int → Option ProcessResult

/-- Embedding of `generateSerpQueries`: any failure yields `[]`, a parsed
payload is truncated with `slice(0, numQueries)`. -/
def generateSerpQueries (env : ResearchEnv) (query : String) (numQueries : Int)
    (learnings : List String) : List SerpQuery :=
  match env.planResponse query learnings numQueries with
  | none => []
  | some parsed => jsSliceTo numQueries parsed

/-- Embedding of `processSerpResult`: any failure yields empty learnings
and follow-ups, a parsed payload is truncated to the two bounds. -/
def processSerpResult (env : ResearchEnv) (query : String) (result : SearchResponse)
    (numLearnings numFollowUpQuestions : Int) : ProcessResult :=
  match env.digestResponse query result numLearnings numFollowUpQuestions with
  | none => { learnings := [], followUpQuestions := [] }
  | some parsed =>
    { learnings := jsSliceTo numLearnings parsed.learnings,
      followUpQuestions := jsSliceTo numFollowUpQuestions parsed.followUpQuestions }

/-- The continuation query text built for a recursive call in
`deepResearch` (the template literal with research goal and follow-up
directions, trimmed). -/
def nextQueryText (researchGoal : String) (followUpQuestions : List String) : String :=
  ("\n            Previous research goal: " ++ researchGoal ++
    "\n            Follow-up research directions: " ++
    String.join (followUpQuestions.map (fun q => "\n" ++ q)) ++
    "\n          ").trim

/-- Embedding of the per-query branch closure inside `deepResearch`
(the body of `serpQueries.map(serpQuery => limit(async () => ...))`).
`deeper` is the recursive `deepResearch` continuation. The second
component of the value counts search-provider invocations in the branch
subtree; a thrown search call still counts as one invocation. -/
def researchBranch (env : ResearchEnv)
    (deeper : String → Int → Int → List String → List String → Option (ResearchResult × Nat))
    (breadth depth : Int) (learnings visitedUrls : List String)
    (serpQuery : SerpQuery) : Option (ResearchResult × Nat) :=
  match env.search serpQuery.query with
  | Except.error _ =>
    some ({ learnings := [], visitedUrls := [] }, 1)
  | Except.ok result =>
    let newUrls := jsCompact (result.data.map SearchItem.url)
    let newBreadth := mathCeilHalf breadth
    let newDepth := depth - 1
    let newLearnings := processSerpResult env serpQuery.query result 3 newBreadth
    let allLearnings := learnings ++ newLearnings.learnings
    let allUrls := visitedUrls ++ newUrls
    if 0 < newDepth then
      (deeper (nextQueryText serpQuery.researchGoal newLearnings.followUpQuestions)
        newBreadth newDepth allLearnings allUrls).map (fun rc => (rc.1, rc.2 + 1))
    else
      some ({ learnings := allLearnings, visitedUrls := allUrls }, 1)

/-- The aggregation at the end of `deepResearch`: flatten the branch
results and deduplicate with `[...new Set(...)]`. -/
def aggregateResults (results : List ResearchResult) : ResearchResult :=
  { learnings := jsSetDedup (results.flatMap ResearchResult.learnings),
    visitedUrls := jsSetDedup (results.flatMap ResearchResult.visitedUrls) }

/-- One level of `deepResearch`: plan the queries, run every branch,
aggregate. `deeper` stands for the recursive call. -/
def deepResearchStep (env : ResearchEnv)
    (deeper : String → Int → Int → List String → List String → Option (ResearchResult × Nat))
    (query : String) (breadth depth : Int)
    (learnings visitedUrls : List String) : Option (ResearchResult × Nat) :=
  let serpQueries := generateSerpQueries env query breadth learnings
  match promiseAll (serpQueries.map
      (researchBranch env deeper breadth depth learnings visitedUrls)) with
  | none => none
  | some results =>
    some (aggregateResults (results.map Prod.fst), (results.map Prod.snd).sum)

/-- Embedding of `deepResearch` from src/deep-research.ts. `fuel` bounds
the number of nested recursive expansions the embedding may perform and is
an artifact of the embedding: a `none` value means the bound was hit while
the source recursion wanted to go deeper (the termination claim shows fuel
equal to the initial depth always suffices). -/
def deepResearch (env : ResearchEnv) :
    Nat → String → Int → Int → List String → List String → Option (ResearchResult × Nat)
  | 0, query, breadth, depth, learnings, visitedUrls =>
    deepResearchStep env (fun _ _ _ _ _ => none) query breadth depth learnings visitedUrls
  | Nat.succ f, query, breadth, depth, learnings, visitedUrls =>
    deepResearchStep env (deepResearch env f) query breadth depth learnings visitedUrls

/-- `MinChunkSize` from src/ai/providers.ts. -/
def MinChunkSize : Nat := 2000

/-- `MaxContextSize` from src/ai/providers.ts (the default context bound
of `trimPrompt`). -/
def MaxContextSize : Nat := 2000000

/-- Modelled from the spec: the collaborators of `trimPrompt`. The file
src/ai/text-splitter.ts (the `RecursiveCharacterTextSplitter`) is not under
src/, and the token encoder is the external js-tiktoken library; the spec
describes the splitter as splitting the text into chunks at
paragraph/sentence/word boundaries with a configured chunk size, first
chunk taken, and the encoder as measuring the unit (token) count of a
text. Accordingly `encLen` is an arbitrary unit-count function and
`splitFirst` an arbitrary first-chunk function whose chunk, being a piece
of the input text, is never longer than the input (`first_le`). Text is
modelled as a list of characters. -/
structure TrimEnv where
  encLen : List Char → Nat
  splitFirst : Nat → List Char → Option (List Char)
  first_le : ∀ n p c, splitFirst n p = some c → c.length ≤ p.length

/-- The `chunkSize` computed inside `trimPrompt`:
`prompt.length - overflowTokens * 3` where
`overflowTokens = length - contextSize` (factored out of the source body
so that the recursion can be reasoned about). -/
def chunkSizeOf (T : TrimEnv) (p : List Char) (contextSize : Nat) : Int :=
  (p.length : Int) - ((T.encLen p - contextSize : Nat) : Int) * 3

/-- Embedding of `trimPrompt` from src/ai/providers.ts over a list of
characters: return short prompts unchanged; otherwise estimate a character
budget, hard-truncate to the minimum floor when the budget undershoots it,
and otherwise take the splitter chunk (falling back to a hard slice when
splitting makes no progress) and recurse. -/
def trimPrompt (T : TrimEnv) (p : List Char) (contextSize : Nat) : List Char :=
  if p = [] then []
  else if hLen : T.encLen p ≤ contextSize then p
  else if hMin : chunkSizeOf T p contextSize < (MinChunkSize : Int) then p.take MinChunkSize
  else if hEq : ((T.splitFirst (chunkSizeOf T p contextSize).toNat p).getD []).length = p.length then
    trimPrompt T (p.take (chunkSizeOf T p contextSize).toNat) contextSize
  else trimPrompt T ((T.splitFirst (chunkSizeOf T p contextSize).toNat p).getD []) contextSize
termination_by p.length
decreasing_by
  · simp only [List.length_take, chunkSizeOf, MinChunkSize] at hMin ⊢
    omega
  · rcases hSp : T.splitFirst (chunkSizeOf T p contextSize).toNat p with _ | c
    · simp only [hSp, Option.getD_none, List.length_nil] at hEq ⊢
      omega
    · have hle := T.first_le _ _ _ hSp
      simp only [hSp, Option.getD_some] at hEq ⊢
      omega

/-- `trimPrompt` on strings (the source works on JavaScript strings). -/
def trimPromptStr (T : TrimEnv) (s : String) (contextSize : Nat) : String :=
  (trimPrompt T s.toList contextSize).asString

/-- The collaborators of `writeFinalReport`: `reportModel` abstracts the
o3MiniModel call on the report prompt (throwing or returning raw content),
`parseReport` abstracts `JSON.parse` of the cleaned content as an object
with a `reportMarkdown` field (`none` on parse failure). -/
structure ReportEnv where
  reportModel : String → Except String String
  parseReport : String → Option String

/-- The `promptText` built inside `writeFinalReport` (learnings formatted
as bullet points, trimmed to 150000 units, interpolated into the fixed
report instruction template). -/
def reportPromptText (T : TrimEnv) (prompt : String) (learnings : List String) : String :=
  let learningsString :=
    trimPromptStr T (String.intercalate "\n" (learnings.map (fun learning => "- " ++ learning))) 150000
  "Please write a detailed research report based on the following information. Format your response as a JSON object containing the report in markdown format.\n\nResearch Topic: " ++
    prompt ++ "\n\nKey Findings:\n" ++ learningsString ++
    "\n\nImportant: Return ONLY the JSON object without any markdown formatting or code blocks.\n\nExample format:\n\x7b\n  \"reportMarkdown\": \"# Research Report\\n\\n[Your detailed report here in markdown format]\"\n\x7d"

/-- Embedding of `writeFinalReport` from src/deep-research.ts: on a parsed
structured response append the sources section to the report body; on
parse failure fall back to raw content if it looks like markdown, else a
fixed sentinel; on a thrown or empty model response a fixed sentinel. -/
def writeFinalReport (T : TrimEnv) (env : ReportEnv) (prompt : String)
    (learnings visitedUrls : List String) : String :=
  match env.reportModel (reportPromptText T prompt learnings) with
  | Except.error _ => "Error: Could not generate report"
  | Except.ok content =>
    if content = "" then "Error: Could not generate report"
    else
      match env.parseReport (cleanJsonResponse content) with
      | some reportMarkdown =>
        let urlsSection := "\n\n## Sources\n\n" ++
          String.intercalate "\n" (visitedUrls.map (fun url => "- " ++ url))
        reportMarkdown ++ urlsSection
      | none =>
        if jsIncludes "#" content || jsIncludes "##" content then
          content ++ "\n\n## Sources\n\n" ++
            String.intercalate "\n" (visitedUrls.map (fun url => "- " ++ url))
        else "Error: Could not parse report"

/-- The ai-SDK `Message` shape used by the repository. -/
structure Message where
  role : String
  content : String
  id : String
deriving DecidableEq

/-- `generationConfig` of a model configuration (src/ai/providers.ts). -/
structure GenerationConfig where
  temperature : ℚ
  maxOutputTokens : Nat
  topK : Option Nat
  topP : Option ℚ
  candidateCount : Option Nat

/-- One safety setting entry of a model configuration. -/
structure SafetySetting where
  category : String
  threshold : String

/-- `ModelConfig` from src/ai/providers.ts. -/
structure ModelConfig where
  generationConfig : GenerationConfig
  safetySettings : List SafetySetting

/-- `baseConfig` from src/ai/providers.ts. -/
def baseConfig : ModelConfig :=
  { generationConfig :=
      { temperature := 0.3, maxOutputTokens := 2048,
        topK := some 40, topP := some 0.95, candidateCount := some 1 },
    safetySettings :=
      [{ category := "HARM_CATEGORY_HARASSMENT", threshold := "BLOCK_MEDIUM_AND_ABOVE" }] }

/-- An error thrown by the upstream generative-model call, as inspected by
the retry loop: an optional status code and a message. -/
structure ReqError where
  status : Option Nat
  message : String
deriving DecidableEq

/-- `formatMessages` from src/deep-research.ts. -/
def formatMessages (system prompt : String) : List Message :=
  [{ role := "system", content := system, id := "system" },
   { role := "user", content := prompt, id := "user" }]

/-- A message in the Google AI request format. -/
structure GoogleAIMessage where
  role : String
  parts : List String
deriving DecidableEq

/-- `convertToGoogleAIMessages` from src/ai/providers.ts (defined but not
on the `makeModelRequest` request path). -/
def convertToGoogleAIMessages (messages : List Message) : List GoogleAIMessage :=
  messages.map (fun m =>
    { role := if m.role = "system" then "user" else m.role, parts := [m.content] })

/-- `MAX_RETRIES` from src/ai/providers.ts. -/
def MAX_RETRIES : Nat := 5

/-- `INITIAL_RETRY_DELAY` (milliseconds) from src/ai/providers.ts. -/
def INITIAL_RETRY_DELAY : Nat := 3000

/-- `MAX_RETRY_DELAY` (milliseconds) from src/ai/providers.ts. -/
def MAX_RETRY_DELAY : Nat := 15000

/-- Embedding of `delay` from src/ai/providers.ts: the backoff duration
awaited before a retry, exponential in the retry count, capped, plus a
jitter term (the `Math.random() * 1000` sample, abstracted as an arbitrary
function of the retry count). -/
def delay (jitter : Nat → Nat) (retryCount : Nat) : Nat :=
  min (INITIAL_RETRY_DELAY * 2 ^ retryCount) MAX_RETRY_DELAY + jitter retryCount

/-- Embedding of the `while (retryCount <= MAX_RETRIES)` loop of
`makeModelRequest`: `att n` is the outcome of the upstream call on attempt
number `n` (zero-based). The value pairs the overall outcome with the list
of backoff delays awaited, in order. -/
def mmrLoop (att : Nat → Except ReqError String) (jitter : Nat → Nat)
    (retryCount : Nat) : Except ReqError String × List Nat :=
  if hrc : retryCount ≤ MAX_RETRIES then
    match att retryCount with
    | Except.ok response => (Except.ok response, [])
    | Except.error e =>
      if h429 : e.status = some 429 ∧ retryCount < MAX_RETRIES then
        let rest := mmrLoop att jitter (retryCount + 1)
        (rest.1, delay jitter (retryCount + 1) :: rest.2)
      else (Except.error e, [])
  else (Except.error { status := none, message := "Max retries exceeded" }, [])
termination_by MAX_RETRIES + 1 - retryCount
decreasing_by
  simp only [MAX_RETRIES] at hrc ⊢
  omega

/-- The expression `messages[messages.length - 1].content` read by
`makeModelRequest` (none when the list is empty, where the source would
throw). -/
def lastMessageContent (messages : List Message) : Option String :=
  messages.getLast?.map Message.content

/-- Embedding of `makeModelRequest` from src/ai/providers.ts: `send`
abstracts the upstream `chat.sendMessage` pipeline and receives exactly
the string the source transmits (the content of the last message), the
model configuration, and the attempt number (the outside world may answer
different attempts differently). The value pairs the outcome with the
awaited backoff delays. -/
def makeModelRequest (send : String → ModelConfig → Nat → Except ReqError String)
    (jitter : Nat → Nat) (messages : List Message) (config : ModelConfig) :
    Except ReqError String × List Nat :=
  match messages.getLast? with
  | none => (Except.error { status := none, message := "TypeError" }, [])
  | some last => mmrLoop (fun retryCount => send last.content config retryCount) jitter 0

/-- Stub environment where every branch discovers the same URL and the
digester reports the query text as a learning: two branches, one shared
URL. -/
def cenvDup : ResearchEnv :=
  { planResponse := fun _ _ _ =>
      some [{ query := "q1", researchGoal := "g1" }, { query := "q2", researchGoal := "g2" }],
    search := fun _ =>
      Except.ok { data := [{ url := some "https://a", markdown := some "md" }] },
    digestResponse := fun q _ _ _ => some { learnings := [q], followUpQuestions := [] } }

/-- Stub environment with one planned query, one found URL and one
learning. -/
def cenvOne : ResearchEnv :=
  { planResponse := fun _ _ _ => some [{ query := "q1", researchGoal := "g1" }],
    search := fun _ => Except.ok { data := [{ url := some "u1", markdown := some "m" }] },
    digestResponse := fun _ _ _ _ => some { learnings := ["L1"], followUpQuestions := [] } }

/-- Stub environment whose planner parses to zero queries. -/
def cenvNoQueries : ResearchEnv :=
  { planResponse := fun _ _ _ => some [],
    search := fun _ => Except.ok { data := [] },
    digestResponse := fun _ _ _ _ => none }

/-- Stub environment whose search provider always fails with a rate
limit. -/
def cenvSearchFail : ResearchEnv :=
  { planResponse := fun _ _ _ => some [{ query := "q1", researchGoal := "g1" }],
    search := fun _ => Except.error { statusCode := some 429, message := "rate limited" },
    digestResponse := fun _ _ _ _ => none }

/-- Concrete trimmer collaborators for witnesses: the unit count is the
character count and the splitter takes a prefix of the chunk size. -/
def trimEnvSimple : TrimEnv :=
  { encLen := fun p => p.length,
    splitFirst := fun n p => some (p.take n),
    first_le := fun n p c h => by
      cases h
      simp only [List.length_take]
      exact min_le_right _ _ }

/-- Concrete report collaborators for witnesses: the model returns fixed
content that parses to a fixed report body. -/
def renvStub : ReportEnv :=
  { reportModel := fun _ => Except.ok "ok",
    parseReport := fun _ => some "# R" }

/-- Concrete upstream send function for witnesses: echoes the transmitted
content. -/
def sendEcho : String → ModelConfig → Nat → Except ReqError String :=
  fun content _ _ => Except.ok content

/-- Zero jitter for witnesses. -/
def jitterZero : Nat → Nat := fun _ => 0

theorem jsSetDedup_aux_nodup (l : List String) :
    ∀ acc : List String, acc.Nodup →
      (l.foldl (fun acc x => if x ∈ acc then acc else acc ++ [x]) acc).Nodup := by
  induction l with
  | nil => intro acc h; exact h
  | cons x xs ih =>
    intro acc h
    simp only [List.foldl_cons]
    by_cases hx : x ∈ acc
    · simp only [if_pos hx]
      exact ih acc h
    · simp only [if_neg hx]
      exact ih _ (by simp [List.nodup_append, h, List.disjoint_singleton, hx])

theorem jsSetDedup_nodup (l : List String) : (jsSetDedup l).Nodup :=
  jsSetDedup_aux_nodup l [] List.nodup_nil

theorem promiseAll_map_isSome {α β : Type} (f : α → Option β) :
    ∀ l : List α, (∀ a ∈ l, (f a).isSome) → (promiseAll (l.map f)).isSome := by
  intro l
  induction l with
  | nil => intro; simp [promiseAll]
  | cons a rest ih =>
    intro h
    have ha := h a (by simp)
    have hr := ih (fun x hx => h x (by simp [hx]))
    rcases hfa : f a with _ | b
    · rw [hfa] at ha; simp at ha
    · rcases hp : promiseAll (rest.map f) with _ | lres
      · rw [hp] at hr; simp at hr
      · simp [promiseAll, hfa, hp]

theorem researchBranch_isSome (env : ResearchEnv)
    (deeper : String → Int → Int → List String → List String → Option (ResearchResult × Nat))
    (breadth depth : Int) (learnings visitedUrls : List String) (sq : SerpQuery)
    (h : ∀ q l u, 0 < depth - 1 → (deeper q (mathCeilHalf breadth) (depth - 1) l u).isSome) :
    (researchBranch env deeper breadth depth learnings visitedUrls sq).isSome := by
  rcases hs : env.search sq.query with e | result
  · simp [researchBranch, hs]
  · simp only [researchBranch, hs]
    by_cases hd : 0 < depth - 1
    · rw [if_pos hd]
      simpa using h _ _ _ hd
    · rw [if_neg hd]
      simp

theorem deepResearchStep_isSome (env : ResearchEnv)
    (deeper : String → Int → Int → List String → List String → Option (ResearchResult × Nat))
    (q : String) (b d : Int) (l u : List String)
    (h : ∀ q2 l2 u2, 0 < d - 1 → (deeper q2 (mathCeilHalf b) (d - 1) l2 u2).isSome) :
    (deepResearchStep env deeper q b d l u).isSome := by
  have hall := promiseAll_map_isSome (researchBranch env deeper b d l u)
    (generateSerpQueries env q b l)
    (fun sq _ => researchBranch_isSome env deeper b d l u sq h)
  unfold deepResearchStep
  rcases hp : promiseAll ((generateSerpQueries env q b l).map
      (researchBranch env deeper b d l u)) with _ | results
  · rw [hp] at hall; simp at hall
  · simp [hp]

theorem deepResearch_isSome_of_le (env : ResearchEnv) :
    ∀ (fuel : Nat) (q : String) (b d : Int) (l u : List String),
      d ≤ (fuel : Int) + 1 → (deepResearch env fuel q b d l u).isSome := by
  intro fuel
  induction fuel with
  | zero =>
    intro q b d l u hd
    simp only [deepResearch]
    apply deepResearchStep_isSome
    intro q2 l2 u2 hpos
    exact absurd hpos (by simp at hd; omega)
  | succ f ih =>
    intro q b d l u hd
    simp only [deepResearch]
    apply deepResearchStep_isSome
    intro q2 l2 u2 hpos
    exact ih q2 (mathCeilHalf b) (d - 1) l2 u2 (by push_cast at hd ⊢; omega)

theorem deepResearchStep_shape (env : ResearchEnv)
    (deeper : String → Int → Int → List String → List String → Option (ResearchResult × Nat))
    (q : String) (b d : Int) (l u : List String) (r : ResearchResult) (c : Nat)
    (h : deepResearchStep env deeper q b d l u = some (r, c)) :
    ∃ results, r = aggregateResults results := by
  simp only [deepResearchStep] at h
  rcases hp : promiseAll ((generateSerpQueries env q b l).map
      (researchBranch env deeper b d l u)) with _ | results
  · rw [hp] at h; simp at h
  · rw [hp] at h
    simp only [Option.some.injEq, Prod.mk.injEq] at h
    exact ⟨results.map Prod.fst, h.1.symm⟩

theorem researchBranch_deeper_irrelevant (env : ResearchEnv)
    (d1 d2 : String → Int → Int → List String → List String → Option (ResearchResult × Nat))
    (b d : Int) (l u : List String) (sq : SerpQuery) (hd : ¬ 0 < d - 1) :
    researchBranch env d1 b d l u sq = researchBranch env d2 b d l u sq := by
  rcases hs : env.search sq.query with e | result
  · simp [researchBranch, hs]
  · simp only [researchBranch, hs]
    rw [if_neg hd, if_neg hd]

theorem deepResearchStep_deeper_irrelevant (env : ResearchEnv)
    (d1 d2 : String → Int → Int → List String → List String → Option (ResearchResult × Nat))
    (q : String) (b d : Int) (l u : List String) (hd : ¬ 0 < d - 1) :
    deepResearchStep env d1 q b d l u = deepResearchStep env d2 q b d l u := by
  unfold deepResearchStep
  rw [funext (fun sq => researchBranch_deeper_irrelevant env d1 d2 b d l u sq hd)]

/-- C1: for every initial breadth at least 1 and depth at least 0,
`deepResearch` terminates: the recursion guard is `newDepth > 0` with
`newDepth = depth - 1`, so depth strictly decreases by 1 at each nested
call and a recursion-nesting budget (fuel) equal to the initial depth is
always sufficient for the call to resolve. -/
theorem deepResearch_terminates_within_depth (env : ResearchEnv) (query : String)
    (breadth depth : Int) (learnings visitedUrls : List String)
    (hb : 1 ≤ breadth) (hd : 0 ≤ depth) :
    (deepResearch env depth.toNat query breadth depth learnings visitedUrls).isSome :=
  deepResearch_isSome_of_le env depth.toNat query breadth depth learnings visitedUrls
    (by omega)

theorem deepResearch_terminates_within_depth_witness :
    (1 : Int) ≤ 2 ∧ (0 : Int) ≤ 3 ∧
      (deepResearch cenvDup (3 : Int).toNat "topic" 2 3 [] []).isSome :=
  ⟨by decide, by decide,
    deepResearch_terminates_within_depth cenvDup "topic" 2 3 [] [] (by decide) (by decide)⟩

/-- C2: whenever a `deepResearch` call resolves, the learnings list and
the visitedUrls list of its value each contain no duplicate entries,
duplicates being judged by exact string equality (the value is built by
`[...new Set(...)]` over the concatenated branch results). -/
theorem deepResearch_result_nodup (env : ResearchEnv) (fuel : Nat) (query : String)
    (breadth depth : Int) (learnings visitedUrls : List String) (r : ResearchResult) (c : Nat)
    (h : deepResearch env fuel query breadth depth learnings visitedUrls = some (r, c)) :
    r.learnings.Nodup ∧ r.visitedUrls.Nodup := by
  have hshape : ∃ results, r = aggregateResults results := by
    cases fuel with
    | zero =>
      simp only [deepResearch] at h
      exact deepResearchStep_shape env _ query breadth depth learnings visitedUrls r c h
    | succ f =>
      simp only [deepResearch] at h
      exact deepResearchStep_shape env _ query breadth depth learnings visitedUrls r c h
  obtain ⟨results, rfl⟩ := hshape
  exact ⟨jsSetDedup_nodup _, jsSetDedup_nodup _⟩

theorem deepResearch_result_nodup_witness :
    (["q1", "q2"] : List String).Nodup ∧ (["https://a"] : List String).Nodup := by
  have h : deepResearch cenvDup 0 "topic" 2 1 [] [] =
      some ({ learnings := ["q1", "q2"], visitedUrls := ["https://a"] }, 2) := by decide
  exact deepResearch_result_nodup cenvDup 0 "topic" 2 1 [] [] _ _ h

/-- C3 counterexample: at depth 0 with empty accumulation, the stub
environment makes one search-provider call (count 1) and returns a
learning and a URL, so the call neither skips planning/search nor returns
the accumulated lists unchanged. -/
theorem depth_zero_not_immediate_cex :
    deepResearch cenvOne 0 "q" 1 0 [] [] =
        some ({ learnings := ["L1"], visitedUrls := ["u1"] }, 1) ∧
      deepResearch cenvOne 0 "q" 1 0 [] [] ≠
        some ({ learnings := [], visitedUrls := [] }, 0) :=
  ⟨by decide, by decide⟩

/-- C3 (amended): a call with depth 0 is not an early base case: it still
performs planning, per-query search and digestion, but never recurses —
its value is that of a single orchestration step whose recursive
continuation is never consulted, so zero recursion fuel suffices and the
result is the aggregation of its own branches, not the unchanged input. -/
theorem depth_zero_no_recursion (env : ResearchEnv) (query : String) (breadth : Int)
    (learnings visitedUrls : List String) (fuel : Nat) :
    deepResearch env fuel query breadth 0 learnings visitedUrls =
      deepResearchStep env (fun _ _ _ _ _ => none) query breadth 0 learnings visitedUrls := by
  cases fuel with
  | zero => rfl
  | succ f =>
    simp only [deepResearch]
    exact deepResearchStep_deeper_irrelevant env _ _ query breadth 0 learnings visitedUrls
      (by decide)

/-- C4 counterexample: with a planner that parses to zero queries and a
nonempty accumulation, the call returns the empty result, not the
accumulated learnings and URLs. -/
theorem zero_queries_drops_accumulation_cex :
    deepResearch cenvNoQueries 1 "q" 2 2 ["L1"] ["u1"] =
        some ({ learnings := [], visitedUrls := [] }, 0) ∧
      deepResearch cenvNoQueries 1 "q" 2 2 ["L1"] ["u1"] ≠
        some ({ learnings := ["L1"], visitedUrls := ["u1"] }, 0) :=
  ⟨by decide, by decide⟩

/-- C4 (amended): whenever the query planner yields zero queries,
`deepResearch` makes no search-provider calls (count 0) and terminates
immediately, returning the empty result set — the accumulated learnings
and visited URLs are dropped, not returned; at the root, where the
accumulation is empty, this coincides with the empty result. -/
theorem zero_queries_returns_empty (env : ResearchEnv) (fuel : Nat) (query : String)
    (breadth depth : Int) (learnings visitedUrls : List String)
    (h : generateSerpQueries env query breadth learnings = []) :
    deepResearch env fuel query breadth depth learnings visitedUrls =
      some ({ learnings := [], visitedUrls := [] }, 0) := by
  cases fuel <;>
    simp [deepResearch, deepResearchStep, h, promiseAll, aggregateResults, jsSetDedup]

theorem zero_queries_returns_empty_witness :
    generateSerpQueries cenvNoQueries "topic" 3 [] = [] ∧
      deepResearch cenvNoQueries 2 "topic" 3 2 [] [] =
        some ({ learnings := [], visitedUrls := [] }, 0) :=
  ⟨by decide, zero_queries_returns_empty cenvNoQueries 2 "topic" 3 2 [] [] (by decide)⟩

/-- C5: a branch whose search call throws contributes exactly the empty
learning set (with its one counted search invocation), and an empty
contribution is dropped by the aggregation, so the overall value is the
aggregation of the remaining branches; sibling branches are separate
elements of the mapped list and are unaffected. -/
theorem branch_failure_empty_contribution (env : ResearchEnv)
    (deeper : String → Int → Int → List String → List String → Option (ResearchResult × Nat))
    (breadth depth : Int) (learnings visitedUrls : List String)
    (sq : SerpQuery) (e : SearchError) (h : env.search sq.query = Except.error e) :
    researchBranch env deeper breadth depth learnings visitedUrls sq =
        some ({ learnings := [], visitedUrls := [] }, 1) ∧
      ∀ (pre post : List ResearchResult),
        aggregateResults (pre ++ { learnings := [], visitedUrls := [] } :: post) =
          aggregateResults (pre ++ post) := by
  constructor
  · simp [researchBranch, h]
  · intro pre post
    simp [aggregateResults, List.flatMap_append, List.flatMap_cons]

theorem branch_failure_empty_contribution_witness :
    cenvSearchFail.search "q1" =
        Except.error { statusCode := some 429, message := "rate limited" } ∧
      researchBranch cenvSearchFail (fun _ _ _ _ _ => none) 2 2 [] []
          { query := "q1", researchGoal := "g1" } =
        some ({ learnings := [], visitedUrls := [] }, 1) :=
  ⟨rfl, (branch_failure_empty_contribution cenvSearchFail (fun _ _ _ _ _ => none) 2 2 [] []
    { query := "q1", researchGoal := "g1" } _ rfl).1⟩

/-- C8: the decayed breadth `Math.ceil(breadth / 2)` computed by the
orchestrator stays at least 1 for every breadth at least 1, including
breadth 1. -/
theorem nextBreadth_ge_one (breadth : Int) (h : 1 ≤ breadth) : 1 ≤ mathCeilHalf breadth := by
  unfold mathCeilHalf
  rw [Int.fdiv_eq_ediv _ (by norm_num)]
  omega

theorem nextBreadth_ge_one_witness : (1 : Int) ≤ 1 ∧ 1 ≤ mathCeilHalf 1 :=
  ⟨by decide, nextBreadth_ge_one 1 (by decide)⟩

theorem mmrLoop_spec :
    ∀ (n : Nat) (att : Nat → Except ReqError String) (jitter : Nat → Nat) (rc : Nat),
      MAX_RETRIES + 1 - rc ≤ n → rc ≤ MAX_RETRIES →
      (mmrLoop att jitter rc).2.length ≤ MAX_RETRIES - rc ∧
      (∀ k, k < (mmrLoop att jitter rc).2.length →
        (mmrLoop att jitter rc).2.getD k 0 = delay jitter (rc + k + 1) ∧
        ∃ e, att (rc + k) = Except.error e ∧ e.status = some 429) ∧
      (∀ s, (mmrLoop att jitter rc).1 = Except.ok s →
        att (rc + (mmrLoop att jitter rc).2.length) = Except.ok s) ∧
      (∀ e, (mmrLoop att jitter rc).1 = Except.error e →
        att (rc + (mmrLoop att jitter rc).2.length) = Except.error e ∧
        (e.status = some 429 → rc + (mmrLoop att jitter rc).2.length = MAX_RETRIES)) := by
  intro n
  induction n with
  | zero =>
    intro att jitter rc hn hrc
    exact absurd hn (by omega)
  | succ n ih =>
    intro att jitter rc hn hrc
    rcases hatt : att rc with e | s
    · by_cases h429 : e.status = some 429 ∧ rc < MAX_RETRIES
      · have heq : mmrLoop att jitter rc =
            ((mmrLoop att jitter (rc + 1)).1,
              delay jitter (rc + 1) :: (mmrLoop att jitter (rc + 1)).2) := by
          rw [mmrLoop, dif_pos hrc]
          simp only [hatt]
          rw [dif_pos h429]
        obtain ⟨ih1, ih2, ih3, ih4⟩ := ih att jitter (rc + 1) (by omega) (by omega)
        rw [heq]
        simp only [List.length_cons]
        refine ⟨by omega, ?_, ?_, ?_⟩
        · intro k hk
          match k with
          | 0 =>
            refine ⟨by simp, e, ?_, h429.1⟩
            simpa using hatt
          | Nat.succ j =>
            have hj : j < (mmrLoop att jitter (rc + 1)).2.length := by omega
            obtain ⟨hd, hatt429⟩ := ih2 j hj
            refine ⟨?_, ?_⟩
            · rw [List.getD_cons_succ, hd]
              congr 1
              omega
            · have hidx : rc + (j + 1) = rc + 1 + j := by omega
              rw [hidx]
              exact hatt429
        · intro s hs
          have hidx : rc + ((mmrLoop att jitter (rc + 1)).2.length + 1) =
              rc + 1 + (mmrLoop att jitter (rc + 1)).2.length := by omega
          rw [hidx]
          exact ih3 s hs
        · intro e2 he2
          have hidx : rc + ((mmrLoop att jitter (rc + 1)).2.length + 1) =
              rc + 1 + (mmrLoop att jitter (rc + 1)).2.length := by omega
          rw [hidx]
          obtain ⟨ha, hb⟩ := ih4 e2 he2
          exact ⟨ha, fun h5 => by have := hb h5; omega⟩
      · have heq : mmrLoop att jitter rc = (Except.error e, []) := by
          rw [mmrLoop, dif_pos hrc]
          simp only [hatt]
          rw [dif_neg h429]
        rw [heq]
        refine ⟨by simp, by simp, by simp, ?_⟩
        intro e2 he2
        obtain rfl : e2 = e := by
          simpa using he2.symm
        simp only [List.length_nil, Nat.add_zero]
        refine ⟨hatt, fun h5 => ?_⟩
        have hnlt : ¬ rc < MAX_RETRIES := fun hlt => h429 ⟨h5, hlt⟩
        omega
    · have heq : mmrLoop att jitter rc = (Except.ok s, []) := by
        rw [mmrLoop, dif_pos hrc]
        simp only [hatt]
      rw [heq]
      refine ⟨by simp, by simp, ?_, by simp⟩
      intro s2 hs2
      obtain rfl : s2 = s := by
        simpa using hs2.symm
      simp only [List.length_nil, Nat.add_zero]
      exact hatt

/-- C6: the executor retries only on a 429 status: every attempt that was
followed by a retry failed with status 429, there are at most
`MAX_RETRIES = 5` retries, the k-th retry (1-based) is preceded by the
backoff delay `min(INITIAL_RETRY_DELAY * 2^k, MAX_RETRY_DELAY)` plus
jitter, a non-429 error propagates immediately as the error of its own
attempt (so exceeding the maximum is only possible for 429, which then
surfaces after exactly `MAX_RETRIES` retries), and a success value is
exactly the upstream response of the final attempt — never a partial
response. -/
theorem makeModelRequest_retry_policy
    (send : String → ModelConfig → Nat → Except ReqError String) (jitter : Nat → Nat)
    (messages : List Message) (config : ModelConfig) (m : Message)
    (hm : messages.getLast? = some m) :
    (makeModelRequest send jitter messages config).2.length ≤ MAX_RETRIES ∧
    (∀ k, k < (makeModelRequest send jitter messages config).2.length →
      (makeModelRequest send jitter messages config).2.getD k 0 = delay jitter (k + 1) ∧
      ∃ e, send m.content config k = Except.error e ∧ e.status = some 429) ∧
    (∀ s, (makeModelRequest send jitter messages config).1 = Except.ok s →
      send m.content config (makeModelRequest send jitter messages config).2.length =
        Except.ok s) ∧
    (∀ e, (makeModelRequest send jitter messages config).1 = Except.error e →
      send m.content config (makeModelRequest send jitter messages config).2.length =
          Except.error e ∧
        (e.status = some 429 →
          (makeModelRequest send jitter messages config).2.length = MAX_RETRIES)) := by
  have hmm : makeModelRequest send jitter messages config =
      mmrLoop (fun retryCount => send m.content config retryCount) jitter 0 := by
    unfold makeModelRequest
    rw [hm]
  rw [hmm]
  have hspec := mmrLoop_spec (MAX_RETRIES + 1) (fun retryCount => send m.content config retryCount)
    jitter 0 (by omega) (by omega)
  simpa using hspec

theorem makeModelRequest_retry_policy_witness :
    (formatMessages "sysA" "hello").getLast? =
        some { role := "user", content := "hello", id := "user" } ∧
      (makeModelRequest sendEcho jitterZero (formatMessages "sysA" "hello") baseConfig).2.length ≤
        MAX_RETRIES :=
  ⟨rfl, (makeModelRequest_retry_policy sendEcho jitterZero (formatMessages "sysA" "hello")
    baseConfig { role := "user", content := "hello", id := "user" } rfl).1⟩

theorem trimPrompt_fix (T : TrimEnv) (N : Nat) (r : List Char)
    (h : T.encLen r ≤ N ∨ r.length ≤ MinChunkSize) : trimPrompt T r N = r := by
  rw [trimPrompt]
  by_cases h0 : r = []
  · rw [if_pos h0]
    exact h0.symm
  rw [if_neg h0]
  by_cases hLen : T.encLen r ≤ N
  · rw [dif_pos hLen]
  · rw [dif_neg hLen]
    have hlen2000 : r.length ≤ MinChunkSize := h.resolve_left hLen
    have hMin : chunkSizeOf T r N < (MinChunkSize : Int) := by
      simp only [chunkSizeOf, MinChunkSize] at *
      omega
    rw [dif_pos hMin]
    exact List.take_of_length_le hlen2000

theorem trimPrompt_shape (T : TrimEnv) (N : Nat) (p : List Char) :
    T.encLen (trimPrompt T p N) ≤ N ∨ (trimPrompt T p N).length ≤ MinChunkSize := by
  have H : ∀ n, ∀ p : List Char, p.length ≤ n →
      T.encLen (trimPrompt T p N) ≤ N ∨ (trimPrompt T p N).length ≤ MinChunkSize := by
    intro n
    induction n with
    | zero =>
      intro p hp
      have h0 : p = [] := List.eq_nil_of_length_eq_zero (Nat.le_zero.mp hp)
      subst h0
      rw [trimPrompt]
      right
      simp [MinChunkSize]
    | succ n ih =>
      intro p hp
      rw [trimPrompt]
      by_cases h0 : p = []
      · rw [if_pos h0]
        right
        simp [MinChunkSize]
      rw [if_neg h0]
      by_cases hLen : T.encLen p ≤ N
      · rw [dif_pos hLen]
        left
        exact hLen
      rw [dif_neg hLen]
      by_cases hMin : chunkSizeOf T p N < (MinChunkSize : Int)
      · rw [dif_pos hMin]
        right
        simp only [List.length_take]
        exact min_le_left _ _
      rw [dif_neg hMin]
      by_cases hEq : ((T.splitFirst (chunkSizeOf T p N).toNat p).getD []).length = p.length
      · rw [dif_pos hEq]
        apply ih
        simp only [List.length_take, chunkSizeOf, MinChunkSize] at hMin ⊢
        omega
      · rw [dif_neg hEq]
        apply ih
        rcases hSp : T.splitFirst (chunkSizeOf T p N).toNat p with _ | c
        · simp only [hSp, Option.getD_none, List.length_nil]
          omega
        · have hle := T.first_le _ _ _ hSp
          simp only [hSp, Option.getD_some] at hEq ⊢
          omega
  exact H p.length p le_rfl

theorem trimPromptList_idem (T : TrimEnv) (N : Nat) (p : List Char) :
    trimPrompt T (trimPrompt T p N) N = trimPrompt T p N :=
  trimPrompt_fix T N _ (trimPrompt_shape T N p)

/-- C7: the prompt trimmer is idempotent — for every string, every
context-size bound, every unit-measuring encoder, and every splitter whose
first chunk is a piece of the input, trimming an already-trimmed string is
the identity: a trimmed value either fits the bound (and is returned
unchanged by the fits-early-return) or is at most the minimum floor of
2000 characters (and is returned unchanged by the floor truncation). -/
theorem trimPrompt_idempotent (T : TrimEnv) (x : String) (N : Nat) :
    trimPromptStr T (trimPromptStr T x N) N = trimPromptStr T x N := by
  unfold trimPromptStr
  have h : ((trimPrompt T x.toList N).asString).toList = trimPrompt T x.toList N := rfl
  rw [h, trimPromptList_idem]

theorem trimPrompt_idempotent_witness :
    trimPromptStr trimEnvSimple (trimPromptStr trimEnvSimple "hello" 10) 10 =
      trimPromptStr trimEnvSimple "hello" 10 :=
  trimPrompt_idempotent trimEnvSimple "hello" 10

/-- C9: when the report model call returns content that parses to a
structured object with a `reportMarkdown` field, `writeFinalReport`
returns exactly that report body followed by the sources section listing
every supplied visited URL, one bullet line per URL, in the order
supplied. -/
theorem writeFinalReport_appends_sources (T : TrimEnv) (env : ReportEnv) (prompt : String)
    (learnings visitedUrls : List String) (content R : String)
    (hc : env.reportModel (reportPromptText T prompt learnings) = Except.ok content)
    (hne : content ≠ "")
    (hp : env.parseReport (cleanJsonResponse content) = some R) :
    writeFinalReport T env prompt learnings visitedUrls =
      R ++ ("\n\n## Sources\n\n" ++
        String.intercalate "\n" (visitedUrls.map (fun url => "- " ++ url))) := by
  unfold writeFinalReport
  rw [hc]
  simp only [if_neg hne, hp]

theorem writeFinalReport_appends_sources_witness :
    renvStub.reportModel (reportPromptText trimEnvSimple "T" ["L1", "L2"]) = Except.ok "ok" ∧
      ("ok" : String) ≠ "" ∧
      renvStub.parseReport (cleanJsonResponse "ok") = some "# R" ∧
      writeFinalReport trimEnvSimple renvStub "T" ["L1", "L2"] ["u1", "u2"] =
        "# R" ++ ("\n\n## Sources\n\n" ++
          String.intercalate "\n" ((["u1", "u2"] : List String).map (fun url => "- " ++ url))) :=
  ⟨rfl, by decide, rfl,
    writeFinalReport_appends_sources trimEnvSimple renvStub "T" ["L1", "L2"] ["u1", "u2"]
      "ok" "# R" rfl (by decide) rfl⟩

/-- C10: `makeModelRequest` transmits upstream only the content of the
last message of the supplied list: two message lists with the same
last-message content produce identical executions for every upstream
responder, jitter source and model configuration — the system message and
all earlier messages never influence the request. -/
theorem makeModelRequest_last_message_only
    (send : String → ModelConfig → Nat → Except ReqError String) (jitter : Nat → Nat)
    (config : ModelConfig) (m1 m2 : List Message)
    (h : lastMessageContent m1 = lastMessageContent m2) :
    makeModelRequest send jitter m1 config = makeModelRequest send jitter m2 config := by
  unfold makeModelRequest
  unfold lastMessageContent at h
  revert h
  rcases m1.getLast? with _ | a <;> rcases m2.getLast? with _ | b <;> intro h
  · rfl
  · simp at h
  · simp at h
  · simp only [Option.map_some', Option.some.injEq] at h
    dsimp only
    rw [h]

theorem makeModelRequest_last_message_only_witness :
    lastMessageContent (formatMessages "sysA" "hello") =
        lastMessageContent (formatMessages "sysB" "hello") ∧
      makeModelRequest sendEcho jitterZero (formatMessages "sysA" "hello") baseConfig =
        makeModelRequest sendEcho jitterZero (formatMessages "sysB" "hello") baseConfig :=
  ⟨rfl, makeModelRequest_last_message_only sendEcho jitterZero baseConfig
    (formatMessages "sysA" "hello") (formatMessages "sysB" "hello") rfl⟩

end DeepResearch
